import Mathlib

/-!
Verification development for `generate_db.py` of the `dartsrctrl` repository.

The script reads a JSON file with `symbols`, `references` and `packages`,
and writes a Sourcetrail database through the Numbat library.  We model the
Numbat backend as an append-only store (`DB`) with a fresh-id counter, Python
strings as `List Char`, and Python dicts as association lists in insertion
order.  All definitions are direct translations of the Python source; purely
spec-side definitions are marked as such in their doc comments.
-/

namespace GenerateDb

/-- A Python string, modelled as its list of characters. -/
abbrev PyStr := List Char

/-- The characters of the sentinel root name `"EXTERNAL"`. -/
def extS : PyStr := "EXTERNAL".data

/-- Node shapes recorded through the Numbat `record_*` calls. -/
inductive NodeKind where
  | namespaceK
  | classK
  | interfaceK
  | fieldK
  | functionK
  | methodK
  | globalVarK
deriving DecidableEq, Repr

/-- Edge kinds recorded through the Numbat `record_ref_*` calls. -/
inductive EdgeKind where
  | call
  | inheritance
  | override
  | includeK
  | usage
deriving DecidableEq, Repr

/-- A node recorded in the backend: id, name, shape, optional parent id,
`is_indexed` flag, and the optional `delimiter` argument of the call. -/
structure Node where
  id : Nat
  name : PyStr
  kind : NodeKind
  parent : Option Nat
  indexed : Bool
  delim : Option PyStr
deriving DecidableEq, Repr

/-- A recorded source location: the symbol id passed (possibly `None`),
file id, start line, start column, end line, end column. -/
structure Loc where
  symbolId : Option Nat
  fileId : Nat
  startLine : Nat
  startCol : Nat
  endLine : Nat
  endCol : Nat
deriving DecidableEq, Repr

/-- The backend database state: a fresh-id counter and append-only lists of
recorded items.  `hasSigCap` models whether the backend object has the
optional `record_symbol_signature` method (probed with `hasattr` in the
source; the probe itself is runtime reflection and is modelled as a flag). -/
structure DB where
  nextId : Nat
  nodes : List Node
  files : List (Nat × PyStr)
  langs : List (Nat × PyStr)
  locs : List Loc
  sigs : List (Option Nat × PyStr)
  edges : List (EdgeKind × Nat × Nat)
  hasSigCap : Bool
deriving DecidableEq, Repr

/-- Record a node of the given shape, returning the fresh id and new state. -/
def DB.recordNode (db : DB) (name : PyStr) (kind : NodeKind) (parent : Option Nat)
    (indexed : Bool) (delim : Option PyStr) : Nat × DB :=
  (db.nextId,
   { db with
     nextId := db.nextId + 1,
     nodes := db.nodes ++ [⟨db.nextId, name, kind, parent, indexed, delim⟩] })

/-- Numbat `record_namespace` (with its optional `delimiter` argument). -/
def DB.record_namespace (db : DB) (name : PyStr) (parent : Option Nat)
    (indexed : Bool) (delim : Option PyStr) : Nat × DB :=
  db.recordNode name .namespaceK parent indexed delim

/-- Numbat `record_class`. -/
def DB.record_class (db : DB) (name : PyStr) (parent : Option Nat) (indexed : Bool) :
    Nat × DB :=
  db.recordNode name .classK parent indexed none

/-- Numbat `record_interface`. -/
def DB.record_interface (db : DB) (name : PyStr) (parent : Option Nat) (indexed : Bool) :
    Nat × DB :=
  db.recordNode name .interfaceK parent indexed none

/-- Numbat `record_field`. -/
def DB.record_field (db : DB) (name : PyStr) (parent : Option Nat) (indexed : Bool) :
    Nat × DB :=
  db.recordNode name .fieldK parent indexed none

/-- Numbat `record_function`. -/
def DB.record_function (db : DB) (name : PyStr) (parent : Option Nat) (indexed : Bool) :
    Nat × DB :=
  db.recordNode name .functionK parent indexed none

/-- Numbat `record_method`. -/
def DB.record_method (db : DB) (name : PyStr) (parent : Option Nat) (indexed : Bool) :
    Nat × DB :=
  db.recordNode name .methodK parent indexed none

/-- Numbat `record_global_variable`. -/
def DB.record_global_variable (db : DB) (name : PyStr) (parent : Option Nat)
    (indexed : Bool) : Nat × DB :=
  db.recordNode name .globalVarK parent indexed none

/-- Numbat `record_file`.  The Python source resolves the path on the
filesystem first; path resolution is not modelled, the path is stored as
given. -/
def DB.record_file (db : DB) (path : PyStr) : Nat × DB :=
  (db.nextId, { db with nextId := db.nextId + 1, files := db.files ++ [(db.nextId, path)] })

/-- Numbat `record_file_language`. -/
def DB.record_file_language (db : DB) (fileId : Nat) (lang : PyStr) : DB :=
  { db with langs := db.langs ++ [(fileId, lang)] }

/-- Numbat `record_symbol_location`. -/
def DB.record_symbol_location (db : DB) (symbolId : Option Nat) (fileId : Nat)
    (startLine startCol endLine endCol : Nat) : DB :=
  { db with locs := db.locs ++ [⟨symbolId, fileId, startLine, startCol, endLine, endCol⟩] }

/-- Numbat `record_symbol_signature` (optional capability). -/
def DB.record_symbol_signature (db : DB) (symbolId : Option Nat) (sig : PyStr) : DB :=
  { db with sigs := db.sigs ++ [(symbolId, sig)] }

/-- Record one edge of the given kind. -/
def DB.recordEdge (db : DB) (kind : EdgeKind) (source dest : Nat) : DB :=
  { db with edges := db.edges ++ [(kind, source, dest)] }

/-- Numbat `record_ref_call`. -/
def DB.record_ref_call (db : DB) (source dest : Nat) : DB := db.recordEdge .call source dest

/-- Numbat `record_ref_inheritance`. -/
def DB.record_ref_inheritance (db : DB) (source dest : Nat) : DB :=
  db.recordEdge .inheritance source dest

/-- Numbat `record_ref_override`. -/
def DB.record_ref_override (db : DB) (source dest : Nat) : DB :=
  db.recordEdge .override source dest

/-- Numbat `record_ref_include`. -/
def DB.record_ref_include (db : DB) (source dest : Nat) : DB :=
  db.recordEdge .includeK source dest

/-- Numbat `record_ref_usage`. -/
def DB.record_ref_usage (db : DB) (source dest : Nat) : DB := db.recordEdge .usage source dest

/-- Lookup in an association list (first match), modelling Python dict
lookup; all dicts in the source keep their keys unique. -/
def alookup {κ ν : Type} [DecidableEq κ] : List (κ × ν) → κ → Option ν
  | [], _ => none
  | kv :: rest, k => if kv.1 = k then some kv.2 else alookup rest k

/-- Python `d[k] = v`: overwrite in place if the key exists, else append,
preserving dict insertion order. -/
def dictInsert {κ ν : Type} [DecidableEq κ] (m : List (κ × ν)) (k : κ) (v : ν) :
    List (κ × ν) :=
  if (alookup m k).isSome then
    m.map fun kv => if kv.1 = k then (k, v) else kv
  else
    m ++ [(k, v)]

/-- Python `str.split(sep)` for a one-character separator: all parts are
kept, including empty ones, and splitting the empty string yields `[""]`. -/
def pySplit (sep : Char) : PyStr → List PyStr
  | [] => [[]]
  | c :: rest =>
    match pySplit sep rest with
    | [] => [[]]
    | h :: t => if c = sep then [] :: h :: t else (c :: h) :: t

/-- A module-map dict: package name (or `EXTERNAL`) to namespace node id. -/
abbrev NsMap := List (PyStr × Nat)

/-- The loop of lines 30-41 of the source: scan `module_map` keys in
insertion order for the longest module root that prefix-matches the package
path, keeping the accumulator `(best_module, best_len)`. -/
def bestModuleGo (packagePath : PyStr) : List PyStr → Option PyStr × Nat → Option PyStr × Nat
  | [], acc => acc
  | mp :: rest, (best, bestLen) =>
    if mp = extS then bestModuleGo packagePath rest (best, bestLen)
    else if packagePath = mp ∨ (mp ++ ['/']) <+: packagePath then
      if mp.length > bestLen then bestModuleGo packagePath rest (some mp, mp.length)
      else bestModuleGo packagePath rest (best, bestLen)
    else bestModuleGo packagePath rest (best, bestLen)

/-- The `best_module` chosen for a package path given the module-map keys in
insertion order. -/
def bestModule (packagePath : PyStr) (keys : List PyStr) : Option PyStr :=
  (bestModuleGo packagePath keys (none, 0)).1

/-- Result of `get_or_create_package_namespace`: the returned namespace id
and the threaded mutable state (`module_map`, the database, `package_map`). -/
structure NsResult where
  nsId : Nat
  moduleMap : NsMap
  db : DB
  packageMap : NsMap
deriving DecidableEq, Repr

/-- The segment loop of lines 63-78: create (or reuse from `package_map`)
one nested namespace per remaining path segment. -/
def nsLoop : List PyStr → Nat → PyStr → DB → NsMap → Nat × DB × NsMap
  | [], currentParent, _, db, packageMap => (currentParent, db, packageMap)
  | p :: ps, currentParent, currentPath, db, packageMap =>
    let newPath := if currentPath ≠ extS then currentPath ++ '/' :: p else p
    match alookup packageMap newPath with
    | some nid => nsLoop ps nid newPath db packageMap
    | none =>
      let r := db.record_namespace p (some currentParent) true (some ['/'])
      nsLoop ps r.1 newPath r.2 (dictInsert packageMap newPath r.1)

/-- Translation of `get_or_create_package_namespace` (lines 21-81). -/
def get_or_create_package_namespace (packagePath : PyStr) (moduleMap : NsMap) (db : DB)
    (packageMap : NsMap) : NsResult :=
  match alookup packageMap packagePath with
  | some i => ⟨i, moduleMap, db, packageMap⟩
  | none =>
    match bestModule packagePath (moduleMap.map Prod.fst) with
    | none =>
      let mmdb :=
        match alookup moduleMap extS with
        | some _ => (moduleMap, db)
        | none =>
          let r := db.record_namespace extS none false none
          (dictInsert moduleMap extS r.1, r.2)
      let parentId := (alookup mmdb.1 extS).getD 0
      let parts := pySplit '/' packagePath
      let r := nsLoop parts parentId extS mmdb.2 packageMap
      ⟨r.1, mmdb.1, r.2.1, dictInsert r.2.2 packagePath r.1⟩
    | some m =>
      let parentId := (alookup moduleMap m).getD 0
      let remainder := (packagePath.drop m.length).dropWhile (fun c => c == '/')
      let parts := if remainder ≠ [] then pySplit '/' remainder else []
      let r := nsLoop parts parentId m db packageMap
      ⟨r.1, moduleMap, r.2.1, dictInsert r.2.2 packagePath r.1⟩

/-- A symbol record from the input JSON.  Fields read with `sym.get(...)`
in the source have the source's defaults; `ID`, `Name` and `Kind` are
accessed with `sym[...]` and are mandatory. -/
structure Symbol where
  ID : Nat
  Name : PyStr
  Kind : PyStr
  PackagePath : PyStr := []
  ParentID : Nat := 0
  File : PyStr := []
  Line : Nat := 0
  Column : Nat := 0
  Sig : PyStr := []
  External : Bool := false
deriving DecidableEq, Repr

/-- A reference record from the input JSON (all fields via `ref.get`). -/
structure Reference where
  FromID : Nat := 0
  ToID : Nat := 0
  RefType : PyStr := []
  File : PyStr := []
  Line : Nat := 0
  Column : Nat := 0
deriving DecidableEq, Repr

/-- Translation of `kind_priority` (lines 199-214): the sort key used to
order symbols before ingestion. -/
def kind_priority (k : PyStr) : Nat :=
  if k = "package".data then 0
  else if k = "library".data then 1
  else if k = "class_".data then 2
  else if k = "mixin".data then 2
  else if k = "extension".data then 2
  else if k = "enum_".data then 2
  else if k = "field".data then 3
  else if k = "function".data then 4
  else if k = "method".data then 4
  else if k = "constructor".data then 4
  else if k = "variable".data then 5
  else if k = "parameter".data then 6
  else 7

/-- The comparison used to sort symbols: by `kind_priority` of the kind. -/
def kpLe (a b : Symbol) : Prop :=
  kind_priority a.Kind ≤ kind_priority b.Kind

instance : DecidableRel kpLe := fun _ _ => Nat.decLe _ _

instance : IsTotal Symbol kpLe := ⟨fun _ _ => Nat.le_total _ _⟩

instance : IsTrans Symbol kpLe := ⟨fun _ _ _ => Nat.le_trans⟩

/-- Translation of `symbols.sort(key=lambda s: kind_priority(s["Kind"]))` (line 216).
Python's sort is stable; it is modelled by a stable insertion sort, whose
output agrees with every stable sort for the same key. -/
def sortSymbols (syms : List Symbol) : List Symbol :=
  List.insertionSort kpLe syms

/-- The run-local mutable state threaded through the ingestion phases:
`module_map`, `package_map`, `file_path_map`, `symbol_id_map` (whose values
can be `None`, hence `Option Nat`), and the backend state. -/
structure PipeState where
  moduleMap : NsMap
  packageMap : NsMap
  fileMap : List (PyStr × Nat)
  sidMap : List (Nat × Option Nat)
  db : DB
deriving DecidableEq, Repr

/-- Lines 227-229: the package-derived parent candidate; the resolver is
invoked only when `PackagePath` is non-empty. -/
def pkgParentOf (st : PipeState) (s : Symbol) : Option Nat × PipeState :=
  if s.PackagePath ≠ [] then
    let r := get_or_create_package_namespace s.PackagePath st.moduleMap st.db st.packageMap
    (some r.nsId, { st with moduleMap := r.moduleMap, db := r.db, packageMap := r.packageMap })
  else (none, st)

/-- Lines 231-237: prefer the mapped `ParentID` when it is non-zero and its
map value is not `None`; otherwise keep the package-derived parent. -/
def effectiveParentId (sidMap : List (Nat × Option Nat)) (pkgParentId : Option Nat)
    (storedParentId : Nat) : Option Nat :=
  if storedParentId ≠ 0 then
    match (alookup sidMap storedParentId).getD none with
    | some m => some m
    | none => pkgParentId
  else pkgParentId

/-- Lines 239-307: the kind dispatch deciding which `record_*` call to make;
returns the recorded id (which is the package-derived parent, possibly
`None`, for a `library`) and the new backend state. -/
def recordByKind (db : DB) (kind name : PyStr) (parentId : Option Nat) (indexed : Bool)
    (pkgParentId : Option Nat) : Option Nat × DB :=
  if kind = "library".data then (pkgParentId, db)
  else if kind = "class_".data then
    let r := db.record_class name parentId indexed
    (some r.1, r.2)
  else if kind = "mixin".data then
    let r := db.record_interface name parentId indexed
    (some r.1, r.2)
  else if kind = "extension".data then
    let r := db.record_namespace name parentId indexed none
    (some r.1, r.2)
  else if kind = "enum_".data then
    let r := db.record_class name parentId indexed
    (some r.1, r.2)
  else if kind = "field".data then
    let r := db.record_field name parentId indexed
    (some r.1, r.2)
  else if kind = "function".data then
    let r := db.record_function name parentId indexed
    (some r.1, r.2)
  else if kind = "method".data then
    let r := db.record_method name parentId indexed
    (some r.1, r.2)
  else if kind = "constructor".data then
    let r := db.record_method name parentId indexed
    (some r.1, r.2)
  else if kind = "variable".data then
    let r := db.record_global_variable name parentId indexed
    (some r.1, r.2)
  else
    let r := db.record_namespace name parentId indexed none
    (some r.1, r.2)

/-- One iteration of the symbol loop (lines 218-345): resolve the package
parent, pick the effective parent, record by kind, store the id mapping,
and record location and signature best-effort. -/
def processSymbol (st : PipeState) (s : Symbol) : PipeState :=
  let pr := pkgParentOf st s
  let st1 := pr.2
  let parentId := effectiveParentId st1.sidMap pr.1 s.ParentID
  let rd := recordByKind st1.db s.Kind s.Name parentId (!s.External) pr.1
  let recordedId := rd.1
  let db1 := rd.2
  let db2 :=
    if s.File ≠ [] ∧ (alookup st1.fileMap s.File).isSome then
      if s.Line > 0 then
        let nameLength := if s.Name ≠ [] then s.Name.length else 1
        db1.record_symbol_location recordedId ((alookup st1.fileMap s.File).getD 0)
          s.Line s.Column s.Line (s.Column + nameLength)
      else db1
    else db1
  let db3 :=
    if s.Sig ≠ [] then
      if db2.hasSigCap then db2.record_symbol_signature recordedId s.Sig else db2
    else db2
  { st1 with db := db3, sidMap := dictInsert st1.sidMap s.ID recordedId }

/-- One iteration of the reference loop (lines 348-401): skip zero or
unmapped endpoints, otherwise record one edge chosen by `RefType`. -/
def processRef (st : PipeState) (r : Reference) : PipeState :=
  if r.FromID = 0 ∨ r.ToID = 0 then st
  else
    match (alookup st.sidMap r.FromID).getD none, (alookup st.sidMap r.ToID).getD none with
    | some fromNumbatId, some toNumbatId =>
      let db :=
        if r.RefType = "call".data then
          st.db.record_ref_call fromNumbatId toNumbatId
        else if r.RefType = "extends_".data ∨ r.RefType = "implements_".data ∨
            r.RefType = "with_".data then
          st.db.record_ref_inheritance fromNumbatId toNumbatId
        else if r.RefType = "override".data then
          st.db.record_ref_override fromNumbatId toNumbatId
        else if r.RefType = "import".data then
          st.db.record_ref_include fromNumbatId toNumbatId
        else
          st.db.record_ref_usage fromNumbatId toNumbatId
      { st with db := db }
    | _, _ => st

/-- The input data parsed from JSON: symbol list, reference list, and the
package list as `(name, version)` pairs (both read with `.get(..., "")`). -/
structure InputData where
  symbols : List Symbol
  references : List Reference
  packages : List (PyStr × PyStr)
deriving DecidableEq, Repr

/-- STEP 0 (lines 147-167): one top-level namespace per named package; the
first package is marked indexed. -/
def recordPackages : List (PyStr × PyStr) → Nat → NsMap → DB → NsMap × DB
  | [], _, moduleMap, db => (moduleMap, db)
  | (pkgName, pkgVersion) :: rest, idx, moduleMap, db =>
    if pkgName ≠ [] then
      let fullName := if pkgVersion ≠ [] then pkgName ++ '@' :: pkgVersion else pkgName
      let isMain := idx = 0
      let r := db.record_namespace fullName none isMain (some ['/'])
      recordPackages rest (idx + 1) (dictInsert moduleMap pkgName r.1) r.2
    else
      recordPackages rest (idx + 1) moduleMap db

/-- The file paths gathered from symbols then references (line 174-183);
the source iterates a Python set, whose order is unspecified — the model
fixes first-occurrence order, on which no claim depends. -/
def gatherFiles (inp : InputData) : List PyStr :=
  (inp.symbols.map Symbol.File).filter (fun f => f ≠ []) ++
    (inp.references.map Reference.File).filter (fun f => f ≠ [])

/-- STEP 1 (lines 185-190): record each unique file once, with language
`"dart"`. -/
def recordFiles : List PyStr → List (PyStr × Nat) → DB → List (PyStr × Nat) × DB
  | [], fileMap, db => (fileMap, db)
  | f :: fs, fileMap, db =>
    if (alookup fileMap f).isSome then recordFiles fs fileMap db
    else
      let r := db.record_file f
      let db1 := r.2.record_file_language r.1 "dart".data
      recordFiles fs (fileMap ++ [(f, r.1)]) db1

/-- The initial backend state right after `SourcetrailDB.open(..., clear=True)`.
Numbat ids are positive; the counter starts at 1. -/
def dbInit (hasSigCap : Bool) : DB :=
  ⟨1, [], [], [], [], [], [], hasSigCap⟩

/-- The whole ingestion run of `main` (lines 147-401): packages, files,
sorted symbols, then references. -/
def run_main (inp : InputData) (hasSigCap : Bool) : PipeState :=
  let p := recordPackages inp.packages 0 [] (dbInit hasSigCap)
  let f := recordFiles (gatherFiles inp) [] p.2
  let st0 : PipeState := ⟨p.1, [], f.1, [], f.2⟩
  let st1 := (sortSymbols inp.symbols).foldl processSymbol st0
  inp.references.foldl processRef st1

/-- Which fatal setup steps fail in a given run, in the order the source
checks them (lines 102-145), plus whether the final `commit`/`close` raises
(lines 403-413). -/
structure RunConfig where
  outputDirCreateFails : Bool := false
  outputDirNotWritable : Bool := false
  inputMissing : Bool := false
  badExtension : Bool := false
  jsonLoadFails : Bool := false
  dbOpenFails : Bool := false
  commitOrCloseFails : Bool := false
deriving DecidableEq, Repr

/-- How `main()` ends: an `exit(n)` call, or a `return b` statement. -/
inductive RunOutcome where
  | exited : Nat → RunOutcome
  | returned : Bool → RunOutcome
deriving DecidableEq, Repr

/-- The control flow of `main` over the failure points: every setup failure
calls `exit(1)`; a `commit`/`close` failure is caught and `main` returns
`False`; otherwise `main` returns `True` (lines 102-145 and 403-413). -/
def main_outcome (cfg : RunConfig) : RunOutcome :=
  if cfg.outputDirCreateFails then .exited 1
  else if cfg.outputDirNotWritable then .exited 1
  else if cfg.inputMissing then .exited 1
  else if cfg.badExtension then .exited 1
  else if cfg.jsonLoadFails then .exited 1
  else if cfg.dbOpenFails then .exited 1
  else if cfg.commitOrCloseFails then .returned false
  else .returned true

/-- The process exit code: `if __name__ == "__main__": main()` (line 416)
discards `main`'s return value, so a plain return exits with code 0. -/
def script_exit_code (cfg : RunConfig) : Nat :=
  match main_outcome cfg with
  | .exited c => c
  | .returned _ => 0

/-! ## Association-list lemmas -/

theorem alookup_append_of_none {κ ν : Type} [DecidableEq κ] (l₁ l₂ : List (κ × ν)) (k : κ)
    (h : alookup l₁ k = none) : alookup (l₁ ++ l₂) k = alookup l₂ k := by
  induction l₁ with
  | nil => rfl
  | cons kv rest ih =>
    by_cases hk : kv.1 = k
    · simp [alookup, hk] at h
    · simp only [alookup, hk, if_false] at h
      simpa only [List.cons_append, alookup, hk, if_false] using ih h

theorem alookup_map_overwrite {κ ν : Type} [DecidableEq κ] (m : List (κ × ν)) (k : κ) (v : ν)
    (h : (alookup m k).isSome) :
    alookup (m.map fun kv => if kv.1 = k then (k, v) else kv) k = some v := by
  induction m with
  | nil => simp [alookup] at h
  | cons kv rest ih =>
    by_cases hk : kv.1 = k
    · simp [alookup, hk]
    · simp only [alookup, hk, if_false] at h
      simp only [List.map_cons, alookup, hk, if_neg, if_false]
      exact ih h

theorem alookup_map_overwrite_ne {κ ν : Type} [DecidableEq κ] (m : List (κ × ν)) (k j : κ)
    (v : ν) (h : k ≠ j) :
    alookup (m.map fun kv => if kv.1 = k then (k, v) else kv) j = alookup m j := by
  induction m with
  | nil => rfl
  | cons kv rest ih =>
    by_cases hk : kv.1 = k
    · have hj : kv.1 ≠ j := by rw [hk]; exact h
      simp only [List.map_cons, hk, if_pos, alookup, h, hj, if_false, ih]
    · simp only [List.map_cons, hk, if_neg, if_false, alookup, ih]

theorem alookup_append_single_ne {κ ν : Type} [DecidableEq κ] (m : List (κ × ν)) (k j : κ)
    (v : ν) (h : k ≠ j) : alookup (m ++ [(k, v)]) j = alookup m j := by
  induction m with
  | nil => simp [alookup, h]
  | cons kv rest ih =>
    by_cases hj : kv.1 = j
    · simp [alookup, hj]
    · simp only [List.cons_append, alookup, hj, if_false]
      exact ih

theorem alookup_dictInsert_self {κ ν : Type} [DecidableEq κ] (m : List (κ × ν)) (k : κ) (v : ν) :
    alookup (dictInsert m k v) k = some v := by
  unfold dictInsert
  by_cases h : (alookup m k).isSome
  · rw [if_pos h]
    exact alookup_map_overwrite m k v h
  · rw [if_neg h]
    have hnone : alookup m k = none := Option.not_isSome_iff_eq_none.mp h
    rw [alookup_append_of_none m _ k hnone]
    simp [alookup]

theorem alookup_dictInsert_ne {κ ν : Type} [DecidableEq κ] (m : List (κ × ν)) (k j : κ) (v : ν)
    (h : k ≠ j) : alookup (dictInsert m k v) j = alookup m j := by
  unfold dictInsert
  by_cases hs : (alookup m k).isSome
  · rw [if_pos hs]
    exact alookup_map_overwrite_ne m k j v h
  · rw [if_neg hs]
    exact alookup_append_single_ne m k j v h

/-! ## The namespace cache memoizes every resolved path -/

theorem get_or_create_lookup_self (packagePath : PyStr) (mm : NsMap) (db : DB) (pm : NsMap) :
    alookup (get_or_create_package_namespace packagePath mm db pm).packageMap packagePath =
      some (get_or_create_package_namespace packagePath mm db pm).nsId := by
  unfold get_or_create_package_namespace
  cases h : alookup pm packagePath with
  | some i => simp [h]
  | none =>
    cases hb : bestModule packagePath (mm.map Prod.fst) with
    | none => simp only [h, hb]; exact alookup_dictInsert_self ..
    | some m => simp only [h, hb]; exact alookup_dictInsert_self ..

/-- C6: resolving the same non-empty `packagePath` twice within one run
returns the identical namespace id both times, and the second call is a
pure cache hit: it creates no namespace nodes and leaves the whole state
(`module_map`, database, `package_map`) unchanged. -/
theorem c6_cache_idempotent (packagePath : PyStr) (_hne : packagePath ≠ []) (mm : NsMap)
    (db : DB) (pm : NsMap) :
    get_or_create_package_namespace packagePath
        (get_or_create_package_namespace packagePath mm db pm).moduleMap
        (get_or_create_package_namespace packagePath mm db pm).db
        (get_or_create_package_namespace packagePath mm db pm).packageMap =
      get_or_create_package_namespace packagePath mm db pm := by
  have hl := get_or_create_lookup_self packagePath mm db pm
  conv_lhs => rw [get_or_create_package_namespace.eq_def]
  rw [hl]

/-- Witness for `c6_cache_idempotent` at a concrete input. -/
theorem c6_cache_idempotent_witness :
    ("app".data ≠ ([] : PyStr)) ∧
      get_or_create_package_namespace "app".data
          (get_or_create_package_namespace "app".data [] (dbInit false) []).moduleMap
          (get_or_create_package_namespace "app".data [] (dbInit false) []).db
          (get_or_create_package_namespace "app".data [] (dbInit false) []).packageMap =
        get_or_create_package_namespace "app".data [] (dbInit false) [] :=
  ⟨by decide, c6_cache_idempotent "app".data (by decide) [] (dbInit false) []⟩

/-! ## The end-to-end scenario of the spec -/

/-- The class symbol of the end-to-end scenario. -/
def symFoo : Symbol :=
  { ID := 1
    Name := "Foo".data
    Kind := "class_".data
    PackagePath := "app/models".data
    File := "x.dart".data
    Line := 3
    Column := 0 }

/-- The method symbol of the end-to-end scenario. -/
def symBar : Symbol :=
  { ID := 2
    Name := "bar".data
    Kind := "method".data
    ParentID := 1
    File := "x.dart".data
    Line := 4 }

/-- The end-to-end scenario input: one package `app` version `1.0`, the
class `Foo` and the method `bar`. -/
def inputC2 : InputData := ⟨[symFoo, symBar], [], [("app".data, "1.0".data)]⟩

/-- C2: running the pipeline on the end-to-end scenario records exactly the
root namespace `app@1.0` (id 1), the namespace `models` under it (id 3;
id 2 is the file `x.dart`), the class `Foo` under `models` (id 4), and the
method `bar` whose parent is `Foo`'s recorded graph id 4, not the `models`
namespace. -/
theorem c2_end_to_end :
    (run_main inputC2 false).db.nodes =
      [⟨1, "app@1.0".data, .namespaceK, none, true, some ['/']⟩,
       ⟨3, "models".data, .namespaceK, some 1, true, some ['/']⟩,
       ⟨4, "Foo".data, .classK, some 3, true, none⟩,
       ⟨5, "bar".data, .methodK, some 4, true, none⟩] ∧
      alookup (run_main inputC2 false).sidMap 1 = some (some 4) ∧
      alookup (run_main inputC2 false).sidMap 2 = some (some 5) := by
  decide

/-! ## Exit-code behaviour of the script -/

/-- C3 (code bug): when every setup step succeeds but the final
`db.commit()`/`db.close()` raises, `main` returns `False` — but line 416
(`if __name__ == "__main__": main()`) discards that value, so the process
exits with code 0, not 1 as the spec requires.  Genuine setup failures do
exit with code 1, and an error-free run exits 0. -/
theorem c3_commit_failure_exit_code :
    main_outcome { commitOrCloseFails := true } = RunOutcome.returned false ∧
      script_exit_code { commitOrCloseFails := true } = 0 ∧
      script_exit_code { inputMissing := true } = 1 ∧
      script_exit_code { dbOpenFails := true } = 1 ∧
      script_exit_code {} = 0 := by
  decide

/-! ## Edge-kind mapping for references -/

/-- A pipeline state whose symbol map resolves source ids 1 and 2. -/
def stRef : PipeState := ⟨[], [], [], [(1, some 10), (2, some 11)], dbInit false⟩

/-- C1 counterexample: a reference with the literal `refType` string
`"with"` (no underscore) and resolvable endpoints produces a generic usage
edge, not an inheritance edge — the dispatch at line 379 matches only the
underscore-suffixed `"extends_"`/`"implements_"`/`"with_"`. -/
theorem c1_with_counterexample :
    (processRef stRef { FromID := 1, ToID := 2, RefType := "with".data }).db.edges =
      [(EdgeKind.usage, 10, 11)] ∧
      (processRef stRef { FromID := 1, ToID := 2, RefType := "extends_".data }).db.edges =
        [(EdgeKind.inheritance, 10, 11)] ∧
      EdgeKind.usage ≠ EdgeKind.inheritance := by
  decide

/-- Spec-side mapping of the amended claim: `"call"` to a call edge, the
underscore-suffixed `"extends_"`/`"implements_"`/`"with_"` to one
inheritance edge kind, `"override"` to an override edge, `"import"` to an
include edge, and every other string to a generic usage edge. -/
def edgeKindOfRefType (rt : PyStr) : EdgeKind :=
  if rt = "call".data then .call
  else if rt = "extends_".data ∨ rt = "implements_".data ∨ rt = "with_".data then .inheritance
  else if rt = "override".data then .override
  else if rt = "import".data then .includeK
  else .usage

/-- C1 (amended): for every reference with non-zero endpoint ids that both
resolve through the symbol id map, exactly one edge is inserted, whose kind
is `edgeKindOfRefType` of the `RefType` string — in particular `"with_"`
shares the inheritance kind with `"extends_"`/`"implements_"`, and every
unrecognized string (including the non-underscore `"with"`) yields a usage
edge and is never dropped. -/
theorem c1_edge_kind_amended (st : PipeState) (r : Reference)
    (hf : r.FromID ≠ 0) (ht : r.ToID ≠ 0) (f t : Nat)
    (hfm : (alookup st.sidMap r.FromID).getD none = some f)
    (htm : (alookup st.sidMap r.ToID).getD none = some t) :
    (processRef st r).db.edges = st.db.edges ++ [(edgeKindOfRefType r.RefType, f, t)] := by
  simp only [processRef, hf, ht, or_self, if_false, hfm, htm, false_or, or_false]
  simp only [edgeKindOfRefType, DB.record_ref_call, DB.record_ref_inheritance,
    DB.record_ref_override, DB.record_ref_include, DB.record_ref_usage, DB.recordEdge]
  split_ifs <;> rfl

/-- Witness for `c1_edge_kind_amended` on an unrecognized `refType`. -/
theorem c1_edge_kind_amended_witness :
    (processRef stRef { FromID := 1, ToID := 2, RefType := "foo".data }).db.edges =
      stRef.db.edges ++ [(edgeKindOfRefType "foo".data, 10, 11)] :=
  c1_edge_kind_amended stRef _ (by decide) (by decide) 10 11 (by decide) (by decide)

/-! ## The reference skip law -/

/-- C8: a reference with a zero `FromID` or `ToID`, or whose endpoint is
not a key of the symbol id map, changes nothing at all: no edge is
inserted, no error is raised, and the run state (hence the run's
success/failure outcome) is untouched. -/
theorem c8_reference_skip (st : PipeState) (r : Reference)
    (h : r.FromID = 0 ∨ r.ToID = 0 ∨ alookup st.sidMap r.FromID = none ∨
      alookup st.sidMap r.ToID = none) :
    processRef st r = st := by
  unfold processRef
  by_cases hz : r.FromID = 0 ∨ r.ToID = 0
  · rw [if_pos hz]
  · rw [if_neg hz]
    have h2 : (alookup st.sidMap r.FromID).getD none = none ∨
        (alookup st.sidMap r.ToID).getD none = none := by
      rcases h with h | h | h | h
      · exact absurd (Or.inl h) hz
      · exact absurd (Or.inr h) hz
      · exact Or.inl (by rw [h]; rfl)
      · exact Or.inr (by rw [h]; rfl)
    cases hfm : (alookup st.sidMap r.FromID).getD none with
    | none => cases htm : (alookup st.sidMap r.ToID).getD none <;> rfl
    | some f =>
      cases htm : (alookup st.sidMap r.ToID).getD none with
      | none => rfl
      | some t =>
        rw [hfm] at h2
        rw [htm] at h2
        rcases h2 with h2 | h2 <;> exact absurd h2 (by simp)

/-- Witness for `c8_reference_skip`: a zero `FromID` is skipped. -/
theorem c8_reference_skip_witness :
    processRef stRef { FromID := 0, ToID := 2, RefType := "call".data } = stRef :=
  c8_reference_skip stRef _ (Or.inl rfl)

/-! ## How one symbol is recorded -/

theorem nodes_record_symbol_location (db : DB) (sid : Option Nat) (fid a b c d : Nat) :
    (db.record_symbol_location sid fid a b c d).nodes = db.nodes := rfl

theorem nodes_record_symbol_signature (db : DB) (sid : Option Nat) (sig : PyStr) :
    (db.record_symbol_signature sid sig).nodes = db.nodes := rfl

theorem pkgParentOf_sidMap (st : PipeState) (s : Symbol) :
    (pkgParentOf st s).2.sidMap = st.sidMap := by
  unfold pkgParentOf
  split_ifs <;> rfl

theorem pkgParentOf_fileMap (st : PipeState) (s : Symbol) :
    (pkgParentOf st s).2.fileMap = st.fileMap := by
  unfold pkgParentOf
  split_ifs <;> rfl

/-- Spec-side: the node shape that each symbol kind is recorded as
(`library` records no node and is excluded). -/
def kindShape (k : PyStr) : NodeKind :=
  if k = "class_".data then .classK
  else if k = "mixin".data then .interfaceK
  else if k = "extension".data then .namespaceK
  else if k = "enum_".data then .classK
  else if k = "field".data then .fieldK
  else if k = "function".data then .functionK
  else if k = "method".data then .methodK
  else if k = "constructor".data then .methodK
  else if k = "variable".data then .globalVarK
  else .namespaceK

set_option maxHeartbeats 2000000 in
theorem recordByKind_ne_library (db : DB) (kind name : PyStr) (parentId : Option Nat)
    (indexed : Bool) (pkgParentId : Option Nat) (h : kind ≠ "library".data) :
    recordByKind db kind name parentId indexed pkgParentId =
      (some db.nextId,
       { db with
         nextId := db.nextId + 1,
         nodes := db.nodes ++ [⟨db.nextId, name, kindShape kind, parentId, indexed, none⟩] }) := by
  unfold recordByKind kindShape
  rw [if_neg h]
  split_ifs <;> rfl

theorem recordByKind_library (db : DB) (name : PyStr) (parentId : Option Nat)
    (indexed : Bool) (pkgParentId : Option Nat) :
    recordByKind db "library".data name parentId indexed pkgParentId = (pkgParentId, db) := by
  unfold recordByKind
  rw [if_pos rfl]

/-- The node list after processing one non-`library` symbol: exactly one
node is appended, shaped by the kind, with the effective parent. -/
theorem processSymbol_nodes (st : PipeState) (s : Symbol) (h : s.Kind ≠ "library".data) :
    (processSymbol st s).db.nodes =
      (pkgParentOf st s).2.db.nodes ++
        [⟨(pkgParentOf st s).2.db.nextId, s.Name, kindShape s.Kind,
          effectiveParentId st.sidMap (pkgParentOf st s).1 s.ParentID, !s.External, none⟩] := by
  simp only [processSymbol]
  rw [pkgParentOf_sidMap, recordByKind_ne_library _ _ _ _ _ _ h]
  split_ifs <;> rfl

/-- Processing a `library` symbol records no node. -/
theorem processSymbol_nodes_library (st : PipeState) (s : Symbol)
    (h : s.Kind = "library".data) :
    (processSymbol st s).db.nodes = (pkgParentOf st s).2.db.nodes := by
  simp only [processSymbol, h, recordByKind_library]
  split_ifs <;> rfl

/-- The symbol id map after processing one symbol: the symbol's own id is
always inserted, mapped to the recorded id. -/
theorem processSymbol_sidMap (st : PipeState) (s : Symbol) :
    (processSymbol st s).sidMap =
      dictInsert st.sidMap s.ID
        (recordByKind (pkgParentOf st s).2.db s.Kind s.Name
          (effectiveParentId st.sidMap (pkgParentOf st s).1 s.ParentID) (!s.External)
          (pkgParentOf st s).1).1 := by
  simp only [processSymbol]
  rw [pkgParentOf_sidMap]

/-! ## The effective-parent rule (C7) -/

/-- Spec-side formulation of the claim: the parent used when recording a
symbol is the mapped `ParentID` whenever `ParentID` is non-zero and its
mapping exists and is not the absent value; otherwise the package-derived
parent. -/
def claimedParent (sidMap : List (Nat × Option Nat)) (s : Symbol) (pkgPar : Option Nat) :
    Option Nat :=
  if s.ParentID ≠ 0 ∧ ((alookup sidMap s.ParentID).getD none).isSome then
    (alookup sidMap s.ParentID).getD none
  else pkgPar

theorem effectiveParentId_eq_claimedParent (sidMap : List (Nat × Option Nat)) (s : Symbol)
    (pkgPar : Option Nat) :
    effectiveParentId sidMap pkgPar s.ParentID = claimedParent sidMap s pkgPar := by
  unfold effectiveParentId claimedParent
  by_cases h0 : s.ParentID ≠ 0
  · rw [if_pos h0]
    by_cases hs : ((alookup sidMap s.ParentID).getD none).isSome
    · obtain ⟨m, hm⟩ := Option.isSome_iff_exists.mp hs
      rw [hm, if_pos (show s.ParentID ≠ 0 ∧ (Option.some m).isSome = true from ⟨h0, rfl⟩)]
    · have hn : (alookup sidMap s.ParentID).getD none = none :=
        Option.not_isSome_iff_eq_none.mp hs
      rw [hn, if_neg (fun hc => absurd hc.2 (by simp))]
  · rw [if_neg h0, if_neg fun hc => h0 hc.1]

/-- C7: the package-derived parent is `None` exactly when `PackagePath` is
empty and otherwise the resolver's namespace id; and the node recorded for
every non-`library` symbol carries as parent the explicit `ParentID`
mapped through the id map when that is non-zero with a present, non-absent
mapping, else the package-derived parent. -/
theorem c7_effective_parent (st : PipeState) (s : Symbol) (h : s.Kind ≠ "library".data) :
    ((s.PackagePath = [] → (pkgParentOf st s).1 = none) ∧
      (s.PackagePath ≠ [] → (pkgParentOf st s).1 =
        some (get_or_create_package_namespace s.PackagePath st.moduleMap st.db
          st.packageMap).nsId)) ∧
      (processSymbol st s).db.nodes =
        (pkgParentOf st s).2.db.nodes ++
          [⟨(pkgParentOf st s).2.db.nextId, s.Name, kindShape s.Kind,
            claimedParent st.sidMap s (pkgParentOf st s).1, !s.External, none⟩] := by
  refine ⟨⟨fun he => ?_, fun hne => ?_⟩, ?_⟩
  · unfold pkgParentOf
    rw [if_neg (by simp [he])]
  · unfold pkgParentOf
    rw [if_pos hne]
  · rw [processSymbol_nodes st s h, effectiveParentId_eq_claimedParent]

/-- An empty pipeline state over a fresh backend. -/
def stEmpty : PipeState := ⟨[], [], [], [], dbInit false⟩

/-- Witness for `c7_effective_parent` at the method symbol `bar`. -/
theorem c7_effective_parent_witness :
    ((symBar.PackagePath = [] → (pkgParentOf stEmpty symBar).1 = none) ∧
      (symBar.PackagePath ≠ [] → (pkgParentOf stEmpty symBar).1 =
        some (get_or_create_package_namespace symBar.PackagePath stEmpty.moduleMap stEmpty.db
          stEmpty.packageMap).nsId)) ∧
      (processSymbol stEmpty symBar).db.nodes =
        (pkgParentOf stEmpty symBar).2.db.nodes ++
          [⟨(pkgParentOf stEmpty symBar).2.db.nextId, symBar.Name, kindShape symBar.Kind,
            claimedParent stEmpty.sidMap symBar (pkgParentOf stEmpty symBar).1,
            !symBar.External, none⟩] :=
  c7_effective_parent stEmpty symBar (by decide)

/-! ## Pathless library symbols (C10) -/

/-- C10: a `library` symbol with empty `PackagePath` creates no graph node
and its id is mapped to the absent value `None`; and any symbol whose
`ParentID` is mapped to `None` in the symbol id map falls back to its own
package-derived parent. -/
theorem c10_pathless_library :
    (∀ (st : PipeState) (s : Symbol), s.Kind = "library".data → s.PackagePath = [] →
      (processSymbol st s).db.nodes = st.db.nodes ∧
        (processSymbol st s).sidMap = dictInsert st.sidMap s.ID none) ∧
      (∀ (st : PipeState) (t : Symbol), alookup st.sidMap t.ParentID = some none →
        effectiveParentId st.sidMap (pkgParentOf st t).1 t.ParentID = (pkgParentOf st t).1) := by
  constructor
  · intro st s hk hp
    have hpr : pkgParentOf st s = (none, st) := by
      unfold pkgParentOf
      rw [if_neg (by simp [hp])]
    constructor
    · rw [processSymbol_nodes_library st s hk, hpr]
    · rw [processSymbol_sidMap, hpr, hk, recordByKind_library]
  · intro st t hm2
    unfold effectiveParentId
    split_ifs with h0
    · rw [hm2]
      rfl
    · rfl

/-- A state whose symbol id map carries the absent value for id 7, as left
behind by a pathless library symbol. -/
def stLibNone : PipeState := ⟨[], [], [], [(7, none)], dbInit false⟩

/-- A pathless library symbol. -/
def symLib : Symbol := { ID := 7, Name := "lib".data, Kind := "library".data }

/-- A method naming the pathless library as its parent. -/
def symUnderLib : Symbol := { ID := 8, Name := "m".data, Kind := "method".data, ParentID := 7 }

/-- Witness for `c10_pathless_library` at concrete inputs. -/
theorem c10_pathless_library_witness :
    ((processSymbol stEmpty symLib).db.nodes = stEmpty.db.nodes ∧
      (processSymbol stEmpty symLib).sidMap = dictInsert stEmpty.sidMap symLib.ID none) ∧
      effectiveParentId stLibNone.sidMap (pkgParentOf stLibNone symUnderLib).1
          symUnderLib.ParentID =
        (pkgParentOf stLibNone symUnderLib).1 :=
  ⟨c10_pathless_library.1 stEmpty symLib (by decide) (by decide),
   c10_pathless_library.2 stLibNone symUnderLib (by decide)⟩

/-! ## Longest-prefix module matching (C4) -/

/-- Spec-side: module root `m` matches `packagePath` — it is not the
`EXTERNAL` sentinel and equals the path or is a prefix of it followed by
`"/"`. -/
def MatchesRoot (packagePath m : PyStr) : Prop :=
  m ≠ extS ∧ (packagePath = m ∨ (m ++ ['/']) <+: packagePath)

instance (packagePath m : PyStr) : Decidable (MatchesRoot packagePath m) := by
  unfold MatchesRoot
  infer_instance

theorem matchesRoot_prefixOf {packagePath m : PyStr} (h : MatchesRoot packagePath m) :
    m <+: packagePath := by
  rcases h.2 with h2 | h2
  · cases h2
    exact List.prefix_refl _
  · exact (List.prefix_append m ['/']).trans h2

/-- Two module roots of equal length matching the same path are equal.  In
particular the longest match is unique, which makes the scan order
irrelevant. -/
theorem matchesRoot_eq_of_length {packagePath m₁ m₂ : PyStr} (h₁ : MatchesRoot packagePath m₁)
    (h₂ : MatchesRoot packagePath m₂) (hl : m₁.length = m₂.length) : m₁ = m₂ :=
  List.IsPrefix.eq_of_length
    (List.prefix_of_prefix_length_le (matchesRoot_prefixOf h₁) (matchesRoot_prefixOf h₂) hl.le)
    hl

/-- Behaviour of the accumulator scan: it either keeps the accumulator
(and then no key matches with a longer root than `n0`), or returns a
matching key of maximal length strictly above `n0`. -/
theorem bestModuleGo_spec (packagePath : PyStr) (keys : List PyStr) :
    ∀ (b0 : Option PyStr) (n0 : Nat),
      (bestModuleGo packagePath keys (b0, n0) = (b0, n0) ∧
        ∀ m ∈ keys, MatchesRoot packagePath m → m.length ≤ n0) ∨
      (∃ b, bestModuleGo packagePath keys (b0, n0) = (some b, b.length) ∧ b ∈ keys ∧
        MatchesRoot packagePath b ∧ n0 < b.length ∧
        ∀ m ∈ keys, MatchesRoot packagePath m → m.length ≤ b.length) := by
  induction keys with
  | nil =>
    intro b0 n0
    exact Or.inl ⟨rfl, by simp⟩
  | cons mp rest ih =>
    intro b0 n0
    by_cases hext : mp = extS
    · have hred : bestModuleGo packagePath (mp :: rest) (b0, n0) =
          bestModuleGo packagePath rest (b0, n0) := by
        simp only [bestModuleGo]
        rw [if_pos hext]
      rcases ih b0 n0 with ⟨heq, hb⟩ | ⟨b, heq, hmem, hM, hlt, hb⟩
      · refine Or.inl ⟨hred.trans heq, ?_⟩
        intro m hm hM2
        rcases List.mem_cons.mp hm with rfl | hm2
        · exact absurd hext hM2.1
        · exact hb m hm2 hM2
      · refine Or.inr ⟨b, hred.trans heq, List.mem_cons_of_mem _ hmem, hM, hlt, ?_⟩
        intro m hm hM2
        rcases List.mem_cons.mp hm with rfl | hm2
        · exact absurd hext hM2.1
        · exact hb m hm2 hM2
    · by_cases hm : packagePath = mp ∨ (mp ++ ['/']) <+: packagePath
      · by_cases hlen : mp.length > n0
        · have hred : bestModuleGo packagePath (mp :: rest) (b0, n0) =
              bestModuleGo packagePath rest (some mp, mp.length) := by
            simp only [bestModuleGo]
            rw [if_neg hext, if_pos hm, if_pos hlen]
          have hMmp : MatchesRoot packagePath mp := ⟨hext, hm⟩
          rcases ih (some mp) mp.length with ⟨heq, hb⟩ | ⟨b, heq, hmemb, hMb, hltb, hb⟩
          · refine Or.inr ⟨mp, hred.trans heq, List.mem_cons_self mp rest, hMmp, hlen, ?_⟩
            intro m hm3 hM2
            rcases List.mem_cons.mp hm3 with rfl | hm4
            · exact le_refl _
            · exact hb m hm4 hM2
          · refine Or.inr ⟨b, hred.trans heq, List.mem_cons_of_mem _ hmemb, hMb,
              lt_trans hlen hltb, ?_⟩
            intro m hm3 hM2
            rcases List.mem_cons.mp hm3 with rfl | hm4
            · exact le_of_lt hltb
            · exact hb m hm4 hM2
        · have hred : bestModuleGo packagePath (mp :: rest) (b0, n0) =
              bestModuleGo packagePath rest (b0, n0) := by
            simp only [bestModuleGo]
            rw [if_neg hext, if_pos hm, if_neg hlen]
          have hle : mp.length ≤ n0 := Nat.not_lt.mp hlen
          rcases ih b0 n0 with ⟨heq, hb⟩ | ⟨b, heq, hmemb, hMb, hltb, hb⟩
          · refine Or.inl ⟨hred.trans heq, ?_⟩
            intro m hm3 hM2
            rcases List.mem_cons.mp hm3 with rfl | hm4
            · exact hle
            · exact hb m hm4 hM2
          · refine Or.inr ⟨b, hred.trans heq, List.mem_cons_of_mem _ hmemb, hMb, hltb, ?_⟩
            intro m hm3 hM2
            rcases List.mem_cons.mp hm3 with rfl | hm4
            · exact hle.trans (le_of_lt hltb)
            · exact hb m hm4 hM2
      · have hred : bestModuleGo packagePath (mp :: rest) (b0, n0) =
            bestModuleGo packagePath rest (b0, n0) := by
          simp only [bestModuleGo]
          rw [if_neg hext, if_neg hm]
        rcases ih b0 n0 with ⟨heq, hb⟩ | ⟨b, heq, hmemb, hMb, hltb, hb⟩
        · refine Or.inl ⟨hred.trans heq, ?_⟩
          intro m hm3 hM2
          rcases List.mem_cons.mp hm3 with rfl | hm4
          · exact absurd hM2.2 hm
          · exact hb m hm4 hM2
        · refine Or.inr ⟨b, hred.trans heq, List.mem_cons_of_mem _ hmemb, hMb, hltb, ?_⟩
          intro m hm3 hM2
          rcases List.mem_cons.mp hm3 with rfl | hm4
          · exact absurd hM2.2 hm
          · exact hb m hm4 hM2

theorem bestModule_some_spec {packagePath : PyStr} {keys : List PyStr} {m : PyStr}
    (h : bestModule packagePath keys = some m) :
    m ∈ keys ∧ MatchesRoot packagePath m ∧ 0 < m.length ∧
      ∀ m2 ∈ keys, MatchesRoot packagePath m2 → m2.length ≤ m.length := by
  unfold bestModule at h
  rcases bestModuleGo_spec packagePath keys none 0 with ⟨heq, _⟩ | ⟨b, heq, hmemb, hMb, hltb, hb⟩
  · rw [heq] at h
    exact absurd h (by simp)
  · rw [heq] at h
    have hbm : b = m := by simpa using h
    subst hbm
    exact ⟨hmemb, hMb, hltb, hb⟩

theorem bestModule_eq_some {packagePath : PyStr} {keys : List PyStr} {m : PyStr}
    (hmem : m ∈ keys) (hM : MatchesRoot packagePath m) (hpos : 0 < m.length)
    (hmax : ∀ m2 ∈ keys, MatchesRoot packagePath m2 → m2.length ≤ m.length) :
    bestModule packagePath keys = some m := by
  unfold bestModule
  rcases bestModuleGo_spec packagePath keys none 0 with ⟨heq, hb⟩ | ⟨b, heq, hmemb, hMb, hltb, hb⟩
  · exact absurd (hb m hmem hM) (by omega)
  · rw [heq]
    have h1 : b.length ≤ m.length := hmax b hmemb hMb
    have h2 : m.length ≤ b.length := hb m hmem hM
    have hmb : m = b := matchesRoot_eq_of_length hM hMb (Nat.le_antisymm h2 h1)
    simp [hmb]

theorem bestModule_eq_none {packagePath : PyStr} {keys : List PyStr}
    (h : ∀ m ∈ keys, ¬ MatchesRoot packagePath m) :
    bestModule packagePath keys = none := by
  unfold bestModule
  rcases bestModuleGo_spec packagePath keys none 0 with ⟨heq, _⟩ | ⟨b, _, hmemb, hMb, _, _⟩
  · rw [heq]
  · exact absurd hMb (h b hmemb)

theorem bestModule_perm (packagePath : PyStr) {keys keys2 : List PyStr}
    (hp : List.Perm keys keys2) :
    bestModule packagePath keys = bestModule packagePath keys2 := by
  cases h : bestModule packagePath keys with
  | some m =>
    obtain ⟨hmem, hM, hpos, hmax⟩ := bestModule_some_spec h
    exact (bestModule_eq_some (hp.mem_iff.mp hmem) hM hpos
      (fun m2 hm2 hM2 => hmax m2 (hp.mem_iff.mpr hm2) hM2)).symm
  | none =>
    cases h2 : bestModule packagePath keys2 with
    | none => rfl
    | some m =>
      obtain ⟨hmem, hM, hpos, hmax⟩ := bestModule_some_spec h2
      have hc := bestModule_eq_some (hp.mem_iff.mpr hmem) hM hpos
        (fun m2 hm2 hM2 => hmax m2 (hp.mem_iff.mp hm2) hM2)
      rw [h] at hc
      exact absurd hc (by simp)

/-- C4: the module root chosen for a package path is independent of the
insertion order of the module map's keys; whenever a root is chosen it
matches the path (equal, or a prefix followed by `"/"`) and has maximal
length among all matching roots; and concretely, for roots
`{"a", "a/b"}` (in either insertion order) and path `"a/b/c"` the resolver
creates exactly one namespace `"c"` as a child of `"a/b"`'s node (id 20),
not a new chain under `"a"` (id 10). -/
theorem c4_longest_prefix_rule :
    (∀ (packagePath : PyStr) (keys keys2 : List PyStr), List.Perm keys keys2 →
      bestModule packagePath keys = bestModule packagePath keys2) ∧
    (∀ (packagePath m : PyStr) (keys : List PyStr), bestModule packagePath keys = some m →
      m ∈ keys ∧ MatchesRoot packagePath m ∧
        ∀ m2 ∈ keys, MatchesRoot packagePath m2 → m2.length ≤ m.length) ∧
    ((get_or_create_package_namespace "a/b/c".data [("a".data, 10), ("a/b".data, 20)]
        (dbInit false) []).db.nodes =
      [⟨1, "c".data, .namespaceK, some 20, true, some ['/']⟩] ∧
      (get_or_create_package_namespace "a/b/c".data [("a/b".data, 20), ("a".data, 10)]
          (dbInit false) []).db.nodes =
        [⟨1, "c".data, .namespaceK, some 20, true, some ['/']⟩] ∧
      (get_or_create_package_namespace "a/b/c".data [("a".data, 10), ("a/b".data, 20)]
          (dbInit false) []).nsId =
        (get_or_create_package_namespace "a/b/c".data [("a/b".data, 20), ("a".data, 10)]
            (dbInit false) []).nsId) := by
  refine ⟨fun packagePath keys keys2 hp => bestModule_perm packagePath hp,
    fun packagePath m keys h => ?_, by decide⟩
  obtain ⟨hmem, hM, _, hmax⟩ := bestModule_some_spec h
  exact ⟨hmem, hM, hmax⟩

/-- Witness for `c4_longest_prefix_rule` at the spec's concrete instance. -/
theorem c4_longest_prefix_rule_witness :
    bestModule "a/b/c".data ["a".data, "a/b".data] =
      bestModule "a/b/c".data ["a/b".data, "a".data] ∧
      ("a/b".data ∈ ["a".data, "a/b".data] ∧ MatchesRoot "a/b/c".data "a/b".data ∧
        ∀ m2 ∈ ["a".data, "a/b".data], MatchesRoot "a/b/c".data m2 →
          m2.length ≤ "a/b".data.length) :=
  ⟨c4_longest_prefix_rule.1 "a/b/c".data _ _ (by decide),
   c4_longest_prefix_rule.2.1 "a/b/c".data "a/b".data _ (by decide)⟩

/-! ## The EXTERNAL fallback (C9) -/

/-- Spec-side: the successive `new_path` cache keys the segment loop of
lines 63-78 computes, starting from `current_path`. -/
def cumPaths (currentPath : PyStr) : List PyStr → List PyStr
  | [] => []
  | p :: ps =>
    (if currentPath ≠ extS then currentPath ++ '/' :: p else p) ::
      cumPaths (if currentPath ≠ extS then currentPath ++ '/' :: p else p) ps

/-- Spec-side: the chain of namespace nodes the segment loop creates when
nothing is cached — one node per segment, ids counting up from `startId`,
each parented under the previous one (the first under `parentId`). -/
def chainNodes (startId parentId : Nat) : List PyStr → List Node
  | [] => []
  | p :: ps =>
    ⟨startId, p, .namespaceK, some parentId, true, some ['/']⟩ ::
      chainNodes (startId + 1) startId ps

/-- When none of the upcoming cache keys is present in `package_map`, the
segment loop records exactly one namespace node per segment, chained under
the previous one. -/
theorem nsLoop_fresh (parts : List PyStr) :
    ∀ (currentParent : Nat) (currentPath : PyStr) (db : DB) (pm : NsMap),
      (∀ q ∈ cumPaths currentPath parts, alookup pm q = none) →
      (cumPaths currentPath parts).Nodup →
      (nsLoop parts currentParent currentPath db pm).2.1.nodes =
          db.nodes ++ chainNodes db.nextId currentParent parts ∧
        (nsLoop parts currentParent currentPath db pm).2.1.nextId = db.nextId + parts.length := by
  induction parts with
  | nil =>
    intro cp cpath db pm _ _
    exact ⟨by simp [nsLoop, chainNodes], by simp [nsLoop]⟩
  | cons p ps ih =>
    intro cp cpath db pm hfresh hnodup
    have hnp : alookup pm (if cpath ≠ extS then cpath ++ '/' :: p else p) = none := by
      apply hfresh
      simp [cumPaths]
    have hcons : cumPaths cpath (p :: ps) =
        (if cpath ≠ extS then cpath ++ '/' :: p else p) ::
          cumPaths (if cpath ≠ extS then cpath ++ '/' :: p else p) ps := by
      simp [cumPaths]
    rw [hcons] at hfresh hnodup
    have hmemtl := List.nodup_cons.mp hnodup
    have hred : nsLoop (p :: ps) cp cpath db pm =
        nsLoop ps db.nextId (if cpath ≠ extS then cpath ++ '/' :: p else p)
          { db with
            nextId := db.nextId + 1,
            nodes := db.nodes ++ [⟨db.nextId, p, .namespaceK, some cp, true, some ['/']⟩] }
          (dictInsert pm (if cpath ≠ extS then cpath ++ '/' :: p else p) db.nextId) := by
      simp only [nsLoop, hnp, DB.record_namespace, DB.recordNode]
    have hfresh2 : ∀ q ∈ cumPaths (if cpath ≠ extS then cpath ++ '/' :: p else p) ps,
        alookup (dictInsert pm (if cpath ≠ extS then cpath ++ '/' :: p else p) db.nextId) q =
          none := by
      intro q hq
      have hqne : (if cpath ≠ extS then cpath ++ '/' :: p else p) ≠ q := by
        intro hc
        subst hc
        exact hmemtl.1 hq
      rw [alookup_dictInsert_ne _ _ _ _ hqne]
      exact hfresh q (List.mem_cons_of_mem _ hq)
    obtain ⟨hn1, hn2⟩ := ih db.nextId (if cpath ≠ extS then cpath ++ '/' :: p else p)
      { db with
        nextId := db.nextId + 1,
        nodes := db.nodes ++ [⟨db.nextId, p, .namespaceK, some cp, true, some ['/']⟩] }
      (dictInsert pm (if cpath ≠ extS then cpath ++ '/' :: p else p) db.nextId)
      hfresh2 hmemtl.2
    constructor
    · rw [hred, hn1]
      simp [chainNodes, List.append_assoc]
    · rw [hred, hn2]
      simp [List.length_cons]
      omega

/-- C9: a non-empty package path that matches no module root and whose
cache keys are all fresh is nested entirely under the `EXTERNAL` root:
when no `EXTERNAL` root exists yet it is created first (lazily, unindexed,
parentless), and then one namespace node is created per `/`-separated
segment, each parented under the previous; when the `EXTERNAL` root
already exists no second `EXTERNAL` node is created — only the segment
chain is appended under the existing root. -/
theorem c9_external_fallback (packagePath : PyStr) (mm : NsMap) (db : DB) (pm : NsMap)
    (_hne : packagePath ≠ [])
    (hmiss : alookup pm packagePath = none)
    (hnomatch : ∀ m ∈ mm.map Prod.fst, ¬ MatchesRoot packagePath m)
    (hfresh : ∀ q ∈ cumPaths extS (pySplit '/' packagePath), alookup pm q = none)
    (hnodup : (cumPaths extS (pySplit '/' packagePath)).Nodup) :
    (alookup mm extS = none →
      (get_or_create_package_namespace packagePath mm db pm).db.nodes =
        db.nodes ++ ⟨db.nextId, extS, .namespaceK, none, false, none⟩ ::
          chainNodes (db.nextId + 1) db.nextId (pySplit '/' packagePath)) ∧
      (∀ e, alookup mm extS = some e →
        (get_or_create_package_namespace packagePath mm db pm).db.nodes =
          db.nodes ++ chainNodes db.nextId e (pySplit '/' packagePath)) := by
  have hbm : bestModule packagePath (mm.map Prod.fst) = none := bestModule_eq_none hnomatch
  constructor
  · intro hext
    obtain ⟨hn1, _⟩ := nsLoop_fresh (pySplit '/' packagePath) db.nextId extS
      { db with
        nextId := db.nextId + 1,
        nodes := db.nodes ++ [⟨db.nextId, extS, .namespaceK, none, false, none⟩] }
      pm hfresh hnodup
    simp only [get_or_create_package_namespace, hmiss, hbm, hext, DB.record_namespace,
      DB.recordNode, alookup_dictInsert_self, Option.getD_some]
    rw [hn1]
    simp [List.append_assoc]
  · intro e hext
    obtain ⟨hn1, _⟩ := nsLoop_fresh (pySplit '/' packagePath) e extS db pm hfresh hnodup
    simp only [get_or_create_package_namespace, hmiss, hbm, hext, Option.getD_some]
    rw [hn1]

/-- Witness for `c9_external_fallback`: path `"pkg/util"` with empty maps
creates `EXTERNAL` (id 1), `pkg` under it (id 2) and `util` under `pkg`
(id 3). -/
theorem c9_external_fallback_witness :
    (alookup ([] : NsMap) extS = none →
      (get_or_create_package_namespace "pkg/util".data [] (dbInit false) []).db.nodes =
        (dbInit false).nodes ++
          ⟨(dbInit false).nextId, extS, .namespaceK, none, false, none⟩ ::
            chainNodes ((dbInit false).nextId + 1) (dbInit false).nextId
              (pySplit '/' "pkg/util".data)) ∧
      (∀ e, alookup ([] : NsMap) extS = some e →
        (get_or_create_package_namespace "pkg/util".data [] (dbInit false) []).db.nodes =
          (dbInit false).nodes ++ chainNodes (dbInit false).nextId e
            (pySplit '/' "pkg/util".data)) :=
  c9_external_fallback "pkg/util".data [] (dbInit false) [] (by decide) (by decide)
    (by simp) (by decide) (by decide)

/-! ## The ordering invariant (C5) -/

theorem processSymbol_sidMap_isSome_mono (st : PipeState) (s : Symbol) (k : Nat)
    (h : (alookup st.sidMap k).isSome) : (alookup (processSymbol st s).sidMap k).isSome := by
  rw [processSymbol_sidMap]
  by_cases hk : s.ID = k
  · subst hk
    rw [alookup_dictInsert_self]
    rfl
  · rw [alookup_dictInsert_ne _ _ _ _ hk]
    exact h

theorem foldl_processSymbol_isSome (l : List Symbol) :
    ∀ (st : PipeState) (k : Nat),
      ((alookup st.sidMap k).isSome ∨ ∃ q ∈ l, q.ID = k) →
      (alookup (l.foldl processSymbol st).sidMap k).isSome := by
  induction l with
  | nil =>
    intro st k h
    rcases h with h | ⟨q, hq, _⟩
    · exact h
    · cases hq
  | cons s rest ih =>
    intro st k h
    rw [List.foldl_cons]
    apply ih
    rcases h with h | ⟨q, hq, hid⟩
    · exact Or.inl (processSymbol_sidMap_isSome_mono st s k h)
    · rcases List.mem_cons.mp hq with rfl | hq2
      · left
        subst hid
        rw [processSymbol_sidMap, alookup_dictInsert_self]
        rfl
      · exact Or.inr ⟨q, hq2, hid⟩

theorem foldl_processSymbol_not_mem (l : List Symbol) :
    ∀ (st : PipeState) (k : Nat), (∀ q ∈ l, q.ID ≠ k) →
      alookup (l.foldl processSymbol st).sidMap k = alookup st.sidMap k := by
  induction l with
  | nil =>
    intro st k _
    rfl
  | cons s rest ih =>
    intro st k h
    rw [List.foldl_cons, ih _ _ (fun q hq => h q (List.mem_cons_of_mem _ hq)),
      processSymbol_sidMap, alookup_dictInsert_ne _ _ _ _ (h s (List.mem_cons_self s rest))]

/-- A list without duplicates cannot contain the pair `[a, b]` and the
pair `[b, a]` as sublists unless `a = b`. -/
theorem pair_sublist_antisymm {α : Type} {a b : α} :
    ∀ {N : List α}, N.Nodup → List.Sublist [a, b] N → List.Sublist [b, a] N → a = b := by
  intro N
  induction N with
  | nil =>
    intro _ h1 _
    exact absurd h1 (by simp)
  | cons x t ih =>
    intro hnd h1 h2
    have hx := List.nodup_cons.mp hnd
    cases h1 with
    | cons _ h1t =>
      cases h2 with
      | cons _ h2t => exact ih hx.2 h1t h2t
      | cons₂ _ h2t =>
        exact absurd (h1t.subset (by simp)) hx.1
    | cons₂ _ h1t =>
      cases h2 with
      | cons _ h2t =>
        exact absurd (h2t.subset (by simp)) hx.1
      | cons₂ _ h2t => rfl

theorem sorted_append_middle {l1 l2 : List Symbol} {s : Symbol}
    (h : List.Sorted kpLe (l1 ++ s :: l2)) :
    (∀ p ∈ l1, kpLe p s) ∧ ∀ p ∈ l2, kpLe s p := by
  have h2 := List.pairwise_append.mp h
  exact ⟨fun p hp => h2.2.2 p hp s (List.mem_cons_self s l2),
    fun p hp => List.rel_of_sorted_cons h2.2.1 p hp⟩

/-- C5: first half — after the stable sort, every symbol `p` of strictly
lower kind priority than `s` sits before `s`, and therefore its id is a
key of the symbol id map by the time `s` is processed.  Second half — a
parent `p` of equal or higher priority that was declared after `s` in raw
order is sorted after `s` (stability), so when `s` is processed (starting
from the empty id map of a run) its `ParentID` lookup misses and the
effective parent falls back to the package-derived parent; the run is a
total function, so it terminates rather than erroring. -/
theorem c5_ordering_invariant (syms : List Symbol) :
    (∀ (l1 l2 : List Symbol) (s : Symbol), sortSymbols syms = l1 ++ s :: l2 →
      ∀ p ∈ syms, kind_priority p.Kind < kind_priority s.Kind →
        p ∈ l1 ∧ ∀ st0 : PipeState,
          (alookup (l1.foldl processSymbol st0).sidMap p.ID).isSome = true) ∧
      (∀ (l1 l2 : List Symbol) (s p : Symbol) (st0 : PipeState) (pkgPar : Option Nat),
        sortSymbols syms = l1 ++ s :: l2 →
        (syms.map Symbol.ID).Nodup →
        p ∈ syms →
        kind_priority s.Kind ≤ kind_priority p.Kind →
        List.Sublist [s, p] syms →
        s.ParentID = p.ID →
        st0.sidMap = [] →
        effectiveParentId (l1.foldl processSymbol st0).sidMap pkgPar s.ParentID = pkgPar) := by
  have hsorted : List.Sorted kpLe (sortSymbols syms) := List.sorted_insertionSort kpLe syms
  have hperm : List.Perm (sortSymbols syms) syms := List.perm_insertionSort kpLe syms
  constructor
  · intro l1 l2 s hsort p hp hlt
    have hpin : p ∈ l1 ++ s :: l2 := by
      rw [← hsort]
      exact hperm.mem_iff.mpr hp
    have hso := hsort ▸ hsorted
    have hmid := sorted_append_middle hso
    have hpl1 : p ∈ l1 := by
      rcases List.mem_append.mp hpin with h | h
      · exact h
      · rcases List.mem_cons.mp h with rfl | h2
        · exact absurd hlt (lt_irrefl _)
        · have := hmid.2 p h2
          unfold kpLe at this
          omega
    refine ⟨hpl1, fun st0 => foldl_processSymbol_isSome l1 st0 p.ID (Or.inr ⟨p, hpl1, rfl⟩)⟩
  · intro l1 l2 s p st0 pkgPar hsort hnodup hp hge hsub hpid hsid
    have hsyms_nodup : syms.Nodup := List.Nodup.of_map _ hnodup
    have hsorted_nodup : (sortSymbols syms).Nodup := hperm.nodup_iff.mpr hsyms_nodup
    have hso := hsort ▸ hsorted
    have hmid := sorted_append_middle hso
    have hpnotl1 : p ∉ l1 := by
      intro hpl1
      have hle : kpLe p s := hmid.1 p hpl1
      have hstable : List.Sublist [s, p] (sortSymbols syms) :=
        List.pair_sublist_insertionSort hge hsub
      have hps : List.Sublist [p, s] (sortSymbols syms) := by
        rw [hsort]
        exact List.Sublist.append (List.singleton_sublist.mpr hpl1)
          (List.Sublist.cons₂ s (List.nil_sublist l2))
      have hsp : s = p := pair_sublist_antisymm hsorted_nodup hstable hps
      subst hsp
      have : List.Nodup [s, s] := hsub.nodup hsyms_nodup
      simp at this
    have hids : ∀ q ∈ l1, q.ID ≠ p.ID := by
      intro q hq hqid
      have hqsort : q ∈ sortSymbols syms := by
        rw [hsort]
        exact List.mem_append_left _ hq
      have hqsyms : q ∈ syms := hperm.mem_iff.mp hqsort
      have : q = p := List.inj_on_of_nodup_map hnodup hqsyms hp hqid
      exact hpnotl1 (this ▸ hq)
    have hlook : alookup (l1.foldl processSymbol st0).sidMap p.ID = none := by
      rw [foldl_processSymbol_not_mem l1 st0 p.ID hids, hsid]
      rfl
    unfold effectiveParentId
    split_ifs with h0
    · rw [hpid, hlook]
      rfl
    · rfl

/-- A class symbol declared first, with strictly lower priority than the
method that names it as parent. -/
def symP : Symbol := { ID := 1, Name := "P".data, Kind := "class_".data }

/-- A method symbol whose parent `symP` precedes it in priority order. -/
def symS : Symbol := { ID := 2, Name := "S".data, Kind := "method".data, ParentID := 1 }

/-- A method symbol declared before its equal-priority parent. -/
def symS2 : Symbol := { ID := 2, Name := "S2".data, Kind := "method".data, ParentID := 3 }

/-- A method symbol declared after `symS2`, which names it as parent. -/
def symP2 : Symbol := { ID := 3, Name := "P2".data, Kind := "method".data }

/-- Witness for `c5_ordering_invariant` at concrete symbol lists. -/
theorem c5_ordering_invariant_witness :
    (symP ∈ [symP] ∧
      (alookup ([symP].foldl processSymbol stEmpty).sidMap symP.ID).isSome = true) ∧
      effectiveParentId (([] : List Symbol).foldl processSymbol stEmpty).sidMap (some 42)
          symS2.ParentID = some 42 := by
  constructor
  · have h1 := (c5_ordering_invariant [symP, symS]).1 [symP] [] symS (by decide) symP
      (by decide) (by decide)
    exact ⟨h1.1, h1.2 stEmpty⟩
  · exact (c5_ordering_invariant [symS2, symP2]).2 [] [symP2] symS2 symP2 stEmpty (some 42)
      (by decide) (by decide) (by decide) (by decide) (List.Sublist.refl _) rfl rfl

end GenerateDb
